import Mathlib

/-!
Shallow embedding of the mly.fyi send-email pipeline
(`src/pages/api/v1/emails/send.ts`) and the session-resolution middleware
(`src/middleware.ts`), with theorems checking the specification's claims.

Modelling conventions:
* JavaScript strings are Lean `String`s; a JS value that may be a string or
  an array of strings (the TypeScript type of `to` / `replyTo`) is `StrOrArr`.
* JS truthiness on optional strings (`!value.text`) is `jsFalsy`:
  `undefined` and `""` are falsy.
* `from.split('@')` (single-character separator) is `jsSplitChar` on the
  string's character list, with the exact JS semantics
  (`"".split('@') = [""]`, `"@@".split('@') = ["","",""]`).
* The database is a pure environment: row lists for `projects` and
  `projectIdentities`; inserts are recorded in the run's outcome.
* External collaborators that live outside `src/` are modelled by their
  result values carried in the environment: `authenticateApiKey` by
  `SendEnv.apiKeyResult`, the provider call `sendEmail` by
  `SendEnv.providerResult` (its `{ data, error }` shape), and `newId` by a
  fresh-id generator over an id counter (each call returns the prefixed
  counter value and advances it; distinct calls yield distinct ids).
* Wall-clock fields (`createdAt`, `updatedAt`, `timestamp`) carry no
  claim-relevant information and are omitted from the row models.
-/

instance {e a : Type} [DecidableEq e] [DecidableEq a] : DecidableEq (Except e a) :=
  fun x y =>
  match x, y with
  | .error u, .error v =>
    if h : u = v then isTrue (by rw [h])
    else isFalse (by intro hc; cases hc; exact h rfl)
  | .ok u, .ok v =>
    if h : u = v then isTrue (by rw [h])
    else isFalse (by intro hc; cases hc; exact h rfl)
  | .error _, .ok _ => isFalse (by intro hc; cases hc)
  | .ok _, .error _ => isFalse (by intro hc; cases hc)

/-- JS `String.prototype.trim`: strip whitespace from both ends. -/
def jsTrim (s : String) : String :=
  String.mk ((s.data.dropWhile Char.isWhitespace).reverse.dropWhile Char.isWhitespace).reverse

/-- JS `String.prototype.toLowerCase` (the Joi `lowercase()` conversion). -/
def jsToLower (s : String) : String :=
  String.mk (s.data.map Char.toLower)

/-- A JS value that is either a single string or an array of strings
(the TypeScript type of `to` and `replyTo` in `SendEmailBody`). -/
inductive StrOrArr where
  | str (s : String)
  | arr (xs : List String)
deriving DecidableEq, Repr

/-- `Array.isArray` on a `StrOrArr`. -/
def StrOrArr.isArr : StrOrArr → Bool
  | .str _ => false
  | .arr _ => true

/-- JS truthiness test for an optional string: `undefined` and `""` are
falsy, every other string is truthy. -/
def jsFalsy : Option String → Bool
  | none => true
  | some s => s == ""

/-- JS `String.prototype.split` with a single-character separator, on the
character list of the string. -/
def jsSplitChar (c : Char) : List Char → List (List Char)
  | [] => [[]]
  | x :: xs =>
    let rest := jsSplitChar c xs
    if x = c then [] :: rest
    else
      match rest with
      | [] => [[x]]
      | y :: ys => (x :: y) :: ys

/-- `from.split('@')[1]` from `send.ts` line 78: the domain used for the
identity lookup (`undefined`, i.e. `none`, when `from` has no `@`). -/
def fromDomain (s : String) : Option String :=
  ((jsSplitChar '@' s.data).get? 1).map (fun l => String.mk l)

/-- Modelled from the spec (claim wording, for comparison with `fromDomain`):
the substring of `from` following the first `@` through the end of the
string, `none` when there is no `@`. -/
def specAfterFirstAt : List Char → Option (List Char)
  | [] => none
  | c :: cs => if c = '@' then some cs else specAfterFirstAt cs

/-- The spec-worded domain extraction, on strings. -/
def specDomainOf (s : String) : Option String :=
  (specAfterFirstAt s.data).map (fun l => String.mk l)

/-- The request body as received (before Joi validation): each field is
absent or a string-or-array value.  The `headers` mapping is kept as an
association list. -/
structure RawBody where
  from_ : Option StrOrArr
  to_ : Option StrOrArr
  replyTo : Option StrOrArr
  subject : Option StrOrArr
  text : Option StrOrArr
  html : Option StrOrArr
  headers : List (String × String)
deriving DecidableEq, Repr

/-- Error kinds surfaced by the route: Joi schema failures (`validation`),
and the `HttpError` kinds used in `send.ts`. -/
inductive RouteErrKind where
  | validation
  | bad_request
  | not_found
  | unauthorized
deriving DecidableEq, Repr

/-- An error carried out of the pipeline: a kind tag plus message. -/
structure RouteErr where
  kind : RouteErrKind
  message : String
deriving DecidableEq, Repr

/-- The body after Joi validation (`value` in `validate`).  `to` and
`replyTo` keep the string-or-array type they have in `SendEmailBody`,
which is why `handle` still guards with `Array.isArray`. -/
structure JoiValue where
  from_ : String
  to_ : StrOrArr
  replyTo : Option StrOrArr
  subject : String
  text : Option String
  html : Option String
  headers : List (String × String)
deriving DecidableEq, Repr

/-- `Joi.string().trim().required()`: absent or array values fail, the
string is trimmed, and an empty (post-trim) string fails. -/
def joiReqString (v : Option StrOrArr) : Except RouteErr String :=
  match v with
  | none => .error ⟨.validation, "is required"⟩
  | some (.arr _) => .error ⟨.validation, "must be a string"⟩
  | some (.str s) =>
    let t := jsTrim s
    if t == "" then .error ⟨.validation, "is not allowed to be empty"⟩ else .ok t

/-- `Joi.string().trim().lowercase().email().required()`: the email format
check itself is the validation library's, taken as a parameter. -/
def joiReqEmail (isEmail : String → Bool) (v : Option StrOrArr) :
    Except RouteErr String :=
  match v with
  | none => .error ⟨.validation, "is required"⟩
  | some (.arr _) => .error ⟨.validation, "must be a string"⟩
  | some (.str s) =>
    let t := jsToLower (jsTrim s)
    if t == "" then .error ⟨.validation, "is not allowed to be empty"⟩
    else if isEmail t then .ok t
    else .error ⟨.validation, "must be a valid email"⟩

/-- `Joi.string().trim().lowercase().email().optional()`. -/
def joiOptEmail (isEmail : String → Bool) (v : Option StrOrArr) :
    Except RouteErr (Option String) :=
  match v with
  | none => .ok none
  | some u => (joiReqEmail isEmail (some u)).map some

/-- `Joi.string().trim().allow('').optional()`: arrays fail, the string is
trimmed, and the empty string is permitted. -/
def joiOptString (v : Option StrOrArr) : Except RouteErr (Option String) :=
  match v with
  | none => .ok none
  | some (.arr _) => .error ⟨.validation, "must be a string"⟩
  | some (.str s) => .ok (some (jsTrim s))

/-- The Joi schema of `validate` (`send.ts` lines 25-45): field-by-field
checks producing the cleaned `value`. -/
def joiValidate (isEmail : String → Bool) (raw : RawBody) :
    Except RouteErr JoiValue :=
  match joiReqString raw.from_ with
  | .error e => .error e
  | .ok f =>
  match joiReqEmail isEmail raw.to_ with
  | .error e => .error e
  | .ok t =>
  match joiOptEmail isEmail raw.replyTo with
  | .error e => .error e
  | .ok r =>
  match joiReqString raw.subject with
  | .error e => .error e
  | .ok sub =>
  match joiOptString raw.text with
  | .error e => .error e
  | .ok tx =>
  match joiOptString raw.html with
  | .error e => .error e
  | .ok h =>
    .ok ⟨f, .str t, r.map .str, sub, tx, h, raw.headers⟩

/-- The body-content rule of `validate` (`send.ts` line 47):
`!value.text && !value.html` rejects the request. -/
def contentRuleOk (text html : Option String) : Bool :=
  !(jsFalsy text && jsFalsy html)

/-- Modelled from the spec (claim wording, for comparison with
`contentRuleOk`): at least one of `text` / `html` is supplied, a supplied
empty string counting as present. -/
def specContentPresent (text html : Option String) : Bool :=
  text.isSome || html.isSome

/-- The full `validate` function of `send.ts`: Joi schema, then the
text-or-html check, which throws `HttpError('bad_request', ...)`. -/
def validate (isEmail : String → Bool) (raw : RawBody) :
    Except RouteErr JoiValue :=
  match joiValidate isEmail raw with
  | .error e => .error e
  | .ok v =>
    if contentRuleOk v.text v.html then .ok v
    else .error ⟨.bad_request, "Either text or html is required."⟩

/-- A `projects` row (the columns `handle` reads). -/
structure Project where
  id : String
  accessKeyId : Option String
  secretAccessKey : Option String
  region : Option String
deriving DecidableEq, Repr

/-- The API-key record returned by `authenticateApiKey`. -/
structure ProjectApiKey where
  id : String
  projectId : String
deriving DecidableEq, Repr

/-- A `projectIdentities` row (the columns `handle` reads). -/
structure ProjectIdentity where
  projectId : String
  domain : String
  status : String
  configurationSetName : Option String
deriving DecidableEq, Repr

/-- An `emailLogs` row as inserted by `handle` (timestamps omitted). -/
structure EmailLogRow where
  id : String
  messageId : Option String
  projectId : String
  apiKeyId : String
  from_ : String
  to_ : StrOrArr
  replyTo : Option StrOrArr
  subject : String
  text : Option String
  html : Option String
  status : String
deriving DecidableEq, Repr

/-- An `emailLogEvents` row as inserted by `handle` (timestamp omitted). -/
structure EmailLogEventRow where
  id : String
  emailLogId : String
  email : StrOrArr
  type_ : String
deriving DecidableEq, Repr

/-- The provider's success payload (`data` of `sendEmail`). -/
structure ProviderData where
  messageId : String
deriving DecidableEq, Repr

/-- The provider's failure payload (`error` of `sendEmail`). -/
structure ProviderError where
  message : String
deriving DecidableEq, Repr

/-- `newId(prefix)`: the id generator, modelled as a prefixed counter; each
call uses the current counter value and the counter advances per call. -/
def newId (pfx : String) (n : Nat) : String :=
  pfx ++ "_" ++ toString n

/-- The environment of one `handle` run: the outcome of the external
`authenticateApiKey`, the database tables read, the outcome the provider
`sendEmail` call would produce, and the id-generator counter. -/
structure SendEnv where
  apiKeyResult : Except RouteErr ProjectApiKey
  projects : List Project
  projectIdentities : List ProjectIdentity
  providerResult : Except ProviderError ProviderData
  idCounter : Nat

/-- Everything one pipeline run produces: the response or error, the rows
inserted into `emailLogs` and `emailLogEvents`, whether the provider
dispatch was reached, and whether the identity lookup was performed. -/
structure SendOutcome where
  result : Except RouteErr String
  logs : List EmailLogRow
  events : List EmailLogEventRow
  dispatched : Bool
  identityLookupDone : Bool
deriving Repr

/-- A failing outcome that wrote no rows. -/
def failOutcome (e : RouteErr) (lookupDone : Bool) : SendOutcome :=
  ⟨.error e, [], [], false, lookupDone⟩

/-- `Array.isArray(to) || Array.isArray(replyTo)` (`send.ts` line 71). -/
def multiRecipient (body : JoiValue) : Bool :=
  body.to_.isArr || (match body.replyTo with
                    | some r => r.isArr
                    | none => false)

/-- The identity lookup of `send.ts` lines 80-87: first `projectIdentities`
row of the project whose `domain` equals the extracted from-domain. -/
def findIdentity (env : SendEnv) (projectId : String) (fd : Option String) :
    Option ProjectIdentity :=
  env.projectIdentities.find? (fun i => i.projectId == projectId && some i.domain == fd)

/-- Dispatch and logging, `send.ts` lines 109-184: credential check,
provider call, then the failure-path or success-path inserts and result. -/
def dispatchStage (env : SendEnv) (project : Project)
    (projectApiKey : ProjectApiKey) (body : JoiValue) : SendOutcome :=
  if jsFalsy project.accessKeyId || jsFalsy project.secretAccessKey then
    failOutcome ⟨.bad_request, "Invalid project credentials"⟩ true
  else
    let emailLogId := newId "emailLog" env.idCounter
    let emailLogEventId := newId "emailLogEvent" (env.idCounter + 1)
    match env.providerResult with
    | .error err =>
      let row : EmailLogRow :=
        ⟨newId "emailLog" (env.idCounter + 2), none, project.id, projectApiKey.id,
         body.from_, body.to_, body.replyTo, body.subject, body.text, body.html,
         "error"⟩
      let ev : EmailLogEventRow := ⟨emailLogEventId, emailLogId, body.to_, "error"⟩
      ⟨.error ⟨.bad_request, err.message⟩, [row], [ev], true, true⟩
    | .ok data =>
      let row : EmailLogRow :=
        ⟨emailLogId, some data.messageId, project.id, projectApiKey.id,
         body.from_, body.to_, body.replyTo, body.subject, body.text, body.html,
         "sending"⟩
      let ev : EmailLogEventRow := ⟨emailLogEventId, emailLogId, body.to_, "sending"⟩
      ⟨.ok emailLogId, [row], [ev], true, true⟩

/-- Identity authorization, `send.ts` lines 78-107: domain extraction,
identity lookup, verification-status and configuration-set checks, then
`dispatchStage`. -/
def identityStage (env : SendEnv) (project : Project)
    (projectApiKey : ProjectApiKey) (body : JoiValue) : SendOutcome :=
  let fd := fromDomain body.from_
  let fdText := fd.getD "undefined"
  match findIdentity env project.id fd with
  | none =>
    failOutcome
      ⟨.bad_request, "You are not allowed to send email from " ++ fdText ++ " domain."⟩
      true
  | some identity =>
    if identity.status != "success" then
      failOutcome ⟨.bad_request, "Identity " ++ fdText ++ " is not verified."⟩ true
    else if jsFalsy identity.configurationSetName then
      failOutcome
        ⟨.bad_request, "Configuration set is not configured for " ++ fdText ++ " domain."⟩
        true
    else
      dispatchStage env project projectApiKey body

/-- The `handle` function of `send.ts`: API-key authentication, project
lookup, multi-recipient guard, then `identityStage`. -/
def handle (env : SendEnv) (body : JoiValue) : SendOutcome :=
  match env.apiKeyResult with
  | .error e => failOutcome e false
  | .ok projectApiKey =>
    match env.projects.find? (fun p => p.id == projectApiKey.projectId) with
    | none => failOutcome ⟨.not_found, "Project not found"⟩ false
    | some project =>
      if multiRecipient body then
        failOutcome ⟨.bad_request, "Multiple recipients are not supported."⟩ false
      else
        identityStage env project projectApiKey body

/-- Modelled from the spec: the route composition done by the `handler`
wrapper of `@/lib/handler` (not under `src/`), which per the control-flow
section runs body validation before `handle` and surfaces validation
errors without invoking the handler. -/
def route (isEmail : String → Bool) (env : SendEnv) (raw : RawBody) :
    SendOutcome :=
  match validate isEmail raw with
  | .error e => ⟨.error e, [], [], false, false⟩
  | .ok body => handle env body

/-- A `users` table row (`src/db/schema/users.ts`; code fields omitted). -/
structure UserRow where
  id : String
  name : String
  email : String
  password : String
  isEnabled : Bool
  authProvider : String
  verifiedAt : Option Nat
deriving DecidableEq, Repr

/-- The projection selected by the middleware's user query
(`columns: id, email, name`). -/
structure CurrentUser where
  id : String
  email : String
  name : String
deriving DecidableEq, Repr

/-- How the middleware run ended: `next()` was called, or an error escaped
the middleware (blocking the request). -/
inductive MwOutcome where
  | nextCalled
  | threw (message : String)
deriving DecidableEq, Repr

/-- The environment of one middleware run: the token decoder, the user
lookup (which may fail with a datastore error), and whether the process
runs in development mode (`import.meta.env.DEV`). -/
structure MwEnv where
  decodeToken : String → Except String String
  findUser : String → Except String (Option UserRow)
  isDev : Bool

/-- Everything one middleware run produces: how it ended, the cookie value
afterwards (`none` when deleted or initially absent), the request-scoped
locals, and which external effects were attempted. -/
structure MwResult where
  outcome : MwOutcome
  cookieAfter : Option String
  currentUser : Option CurrentUser
  currentUserId : Option String
  decodeAttempted : Bool
  dbAttempted : Bool
deriving DecidableEq, Repr

/-- The `onRequest` middleware of `src/middleware.ts`.  The cookie value is
the session token, when present.  `decodeToken` is an external collaborator
(`src/lib/jwt.ts` is not under `src/` here); modelled from the spec, it
fails with `InvalidToken` on malformed, expired or tampered input.  The
decode happens before the `try` block, so a decode failure propagates out
of the middleware.  Inside the `try`, a missing user deletes the cookie and
proceeds; a found user populates `currentUser` / `currentUserId`; a thrown
datastore error deletes the cookie and proceeds in non-development
environments, and merely logs in development. -/
def onRequest (env : MwEnv) (cookie : Option String) : MwResult :=
  match cookie with
  | none => ⟨.nextCalled, none, none, none, false, false⟩
  | some tok =>
    match env.decodeToken tok with
    | .error e => ⟨.threw e, some tok, none, none, true, false⟩
    | .ok uid =>
      match env.findUser uid with
      | .ok none => ⟨.nextCalled, none, none, none, true, true⟩
      | .ok (some u) =>
        ⟨.nextCalled, some tok, some ⟨u.id, u.email, u.name⟩, some u.id, true, true⟩
      | .error _ =>
        if env.isDev then ⟨.nextCalled, some tok, none, none, true, true⟩
        else ⟨.nextCalled, none, none, none, true, true⟩

/-- An email-format checker accepting everything, used to instantiate the
validation library's email check in concrete runs. -/
def emailAlwaysOk : String → Bool := fun _ => true

/-- The worked example of the spec: a well-formed request body. -/
def sampleRaw : RawBody :=
  ⟨some (.str "hello@mly.fyi"), some (.str "a@b.com"), none, some (.str "Hello"),
   some (.str "Hello World"), some (.str "<p>Hello World</p>"), []⟩

/-- The cleaned value `validate` produces from `sampleRaw`. -/
def sampleBody : JoiValue :=
  ⟨"hello@mly.fyi", .str "a@b.com", none, "Hello",
   some "Hello World", some "<p>Hello World</p>", []⟩

/-- A project with provider credentials. -/
def sampleProject : Project :=
  ⟨"proj1", some "AK", some "SK", some "us-east-1"⟩

/-- The resolved API key of `sampleProject`. -/
def sampleApiKey : ProjectApiKey :=
  ⟨"key1", "proj1"⟩

/-- A verified identity for `mly.fyi` with a configuration set. -/
def sampleIdentity : ProjectIdentity :=
  ⟨"proj1", "mly.fyi", "success", some "cfg"⟩

/-- A fully-configured environment whose provider call succeeds. -/
def sampleEnvOk : SendEnv :=
  ⟨.ok sampleApiKey, [sampleProject], [sampleIdentity], .ok ⟨"msg-1"⟩, 0⟩

/-- The same environment with a failing provider call. -/
def sampleEnvProviderErr : SendEnv :=
  ⟨.ok sampleApiKey, [sampleProject], [sampleIdentity], .error ⟨"provider boom"⟩, 0⟩

/-- The same environment with no identity rows at all. -/
def sampleEnvNoIdentity : SendEnv :=
  ⟨.ok sampleApiKey, [sampleProject], [], .ok ⟨"msg-1"⟩, 0⟩

/-- `sampleRaw` with an array-valued `to` field. -/
def sampleRawArrayTo : RawBody :=
  ⟨some (.str "hello@mly.fyi"), some (.arr ["a@b.com", "c@d.com"]), none,
   some (.str "Hello"), some (.str "Hello World"), some (.str "<p>Hello World</p>"), []⟩

/-- `sampleRaw` with `text` supplied as the empty string and no `html`. -/
def sampleRawEmptyText : RawBody :=
  ⟨some (.str "hello@mly.fyi"), some (.str "a@b.com"), none, some (.str "Hello"),
   some (.str ""), none, []⟩

/-- A middleware environment whose token decoder always fails. -/
def mwEnvBadToken : MwEnv :=
  ⟨fun _ => .error "InvalidToken", fun _ => .ok none, false⟩

/-- A disabled, unverified user row. -/
def sampleDisabledUser : UserRow :=
  ⟨"user1", "Nia", "nia@example.com", "hashed", false, "email", none⟩

/-- A production middleware environment that resolves `"tok"` to `"user1"`
and finds `sampleDisabledUser` there. -/
def mwEnvDisabledUser : MwEnv :=
  ⟨fun t => if t == "tok" then .ok "user1" else .error "InvalidToken",
   fun uid => if uid == "user1" then .ok (some sampleDisabledUser) else .ok none,
   false⟩

/-- A production middleware environment where the decoded user is missing
from the datastore. -/
def mwEnvNoUser : MwEnv :=
  ⟨fun _ => .ok "ghost", fun _ => .ok none, false⟩

/-- A production middleware environment whose user lookup throws. -/
def mwEnvDbError : MwEnv :=
  ⟨fun _ => .ok "user1", fun _ => .error "db down", false⟩

/-- A non-falsy optional string is not `none`. -/
lemma jsFalsy_false_ne_none (o : Option String) (h : jsFalsy o = false) :
    o ≠ none := by
  cases o with
  | none => simp [jsFalsy] at h
  | some s => intro hc; exact Option.noConfusion hc

/-- The cleaned value produced by the Joi schema never carries an array in
`to` or `replyTo`, so the multi-recipient guard in `handle` is false on it. -/
lemma joiValidate_ok_not_multi (isEmail : String → Bool) (raw : RawBody)
    (v : JoiValue) (h : joiValidate isEmail raw = .ok v) :
    multiRecipient v = false := by
  unfold joiValidate at h
  cases hf : joiReqString raw.from_ with
  | error e => rw [hf] at h; exact Except.noConfusion h
  | ok f =>
    rw [hf] at h
    cases ht : joiReqEmail isEmail raw.to_ with
    | error e => rw [ht] at h; exact Except.noConfusion h
    | ok t =>
      rw [ht] at h
      cases hr : joiOptEmail isEmail raw.replyTo with
      | error e => rw [hr] at h; exact Except.noConfusion h
      | ok r =>
        rw [hr] at h
        cases hs : joiReqString raw.subject with
        | error e => rw [hs] at h; exact Except.noConfusion h
        | ok sub =>
          rw [hs] at h
          cases htx : joiOptString raw.text with
          | error e => rw [htx] at h; exact Except.noConfusion h
          | ok tx =>
            rw [htx] at h
            cases hht : joiOptString raw.html with
            | error e => rw [hht] at h; exact Except.noConfusion h
            | ok hl =>
              rw [hht] at h
              injection h with h2
              subst h2
              cases r <;> simp [multiRecipient, StrOrArr.isArr]

/-- A body accepted by `validate` was accepted by the Joi schema. -/
lemma validate_ok_joi (isEmail : String → Bool) (raw : RawBody) (v : JoiValue)
    (h : validate isEmail raw = .ok v) : joiValidate isEmail raw = .ok v := by
  unfold validate at h
  cases hj : joiValidate isEmail raw with
  | error e => rw [hj] at h; exact Except.noConfusion h
  | ok w =>
    rw [hj] at h
    cases hcc : contentRuleOk w.text w.html with
    | true =>
      simp [hcc] at h
      rw [h]
    | false => simp [hcc] at h

/-- A body accepted by `validate` does not trip the multi-recipient guard. -/
lemma validate_ok_not_multi (isEmail : String → Bool) (raw : RawBody)
    (v : JoiValue) (h : validate isEmail raw = .ok v) :
    multiRecipient v = false :=
  joiValidate_ok_not_multi isEmail raw v (validate_ok_joi isEmail raw v h)

/-- When validation accepts, the route runs `handle` on the cleaned body. -/
lemma route_ok (isEmail : String → Bool) (env : SendEnv) (raw : RawBody)
    (v : JoiValue) (h : validate isEmail raw = .ok v) :
    route isEmail env raw = handle env v := by
  unfold route; rw [h]

/-- When validation rejects, the route surfaces the error and writes no
rows, performs no lookup and no dispatch. -/
lemma route_error (isEmail : String → Bool) (env : SendEnv) (raw : RawBody)
    (e : RouteErr) (h : validate isEmail raw = .error e) :
    route isEmail env raw = ⟨.error e, [], [], false, false⟩ := by
  unfold route; rw [h]

/-- With a resolved API key, an existing project and a non-array recipient,
`handle` proceeds to the identity stage. -/
lemma handle_to_identityStage (env : SendEnv) (body : JoiValue)
    (k : ProjectApiKey) (project : Project)
    (hk : env.apiKeyResult = .ok k)
    (hp : env.projects.find? (fun p => p.id == k.projectId) = some project)
    (hm : multiRecipient body = false) :
    handle env body = identityStage env project k body := by
  simp [handle, hk, hp, hm]

/-- With a verified, configured identity found, the identity stage proceeds
to dispatch. -/
lemma identityStage_to_dispatch (env : SendEnv) (project : Project)
    (k : ProjectApiKey) (body : JoiValue) (identity : ProjectIdentity)
    (hi : findIdentity env project.id (fromDomain body.from_) = some identity)
    (hs : identity.status = "success")
    (hc : jsFalsy identity.configurationSetName = false) :
    identityStage env project k body = dispatchStage env project k body := by
  simp [identityStage, hi, hs, hc]

/-- With credentials present and a successful provider call, the dispatch
stage inserts the sending log and event and returns the log id. -/
lemma dispatchStage_ok (env : SendEnv) (project : Project) (k : ProjectApiKey)
    (body : JoiValue) (d : ProviderData)
    (h1 : jsFalsy project.accessKeyId = false)
    (h2 : jsFalsy project.secretAccessKey = false)
    (hp : env.providerResult = .ok d) :
    dispatchStage env project k body =
      ⟨.ok (newId "emailLog" env.idCounter),
       [⟨newId "emailLog" env.idCounter, some d.messageId, project.id, k.id,
         body.from_, body.to_, body.replyTo, body.subject, body.text, body.html,
         "sending"⟩],
       [⟨newId "emailLogEvent" (env.idCounter + 1), newId "emailLog" env.idCounter,
         body.to_, "sending"⟩],
       true, true⟩ := by
  simp [dispatchStage, h1, h2, hp]

/-- With credentials present and a failing provider call, the dispatch
stage inserts the error log and event and surfaces the provider message. -/
lemma dispatchStage_err (env : SendEnv) (project : Project) (k : ProjectApiKey)
    (body : JoiValue) (err : ProviderError)
    (h1 : jsFalsy project.accessKeyId = false)
    (h2 : jsFalsy project.secretAccessKey = false)
    (hp : env.providerResult = .error err) :
    dispatchStage env project k body =
      ⟨.error ⟨.bad_request, err.message⟩,
       [⟨newId "emailLog" (env.idCounter + 2), none, project.id, k.id,
         body.from_, body.to_, body.replyTo, body.subject, body.text, body.html,
         "error"⟩],
       [⟨newId "emailLogEvent" (env.idCounter + 1), newId "emailLog" env.idCounter,
         body.to_, "error"⟩],
       true, true⟩ := by
  simp [dispatchStage, h1, h2, hp]

/-- C1: for every valid request whose from-domain resolves to an identity
with status success and a (JS-truthy) configurationSetName, with project
credentials present and a successful provider dispatch, the handler
persists exactly one EmailLog row with status sending carrying the
provider's messageId, exactly one EmailLogEvent of type sending whose
emailLogId equals that row's id, and responds with that same id. -/
theorem send_success_one_sending_log_and_event (isEmail : String → Bool)
    (env : SendEnv) (raw : RawBody) (body : JoiValue) (k : ProjectApiKey)
    (project : Project) (identity : ProjectIdentity) (d : ProviderData)
    (hv : validate isEmail raw = .ok body)
    (hk : env.apiKeyResult = .ok k)
    (hp : env.projects.find? (fun p => p.id == k.projectId) = some project)
    (hi : findIdentity env project.id (fromDomain body.from_) = some identity)
    (hs : identity.status = "success")
    (hc : jsFalsy identity.configurationSetName = false)
    (ha : jsFalsy project.accessKeyId = false)
    (hsk : jsFalsy project.secretAccessKey = false)
    (hprov : env.providerResult = .ok d) :
    ∃ logRow evRow,
      (route isEmail env raw).logs = [logRow] ∧
      (route isEmail env raw).events = [evRow] ∧
      logRow.status = "sending" ∧
      logRow.messageId = some d.messageId ∧
      evRow.type_ = "sending" ∧
      evRow.emailLogId = logRow.id ∧
      (route isEmail env raw).result = .ok logRow.id := by
  have hroute : route isEmail env raw = dispatchStage env project k body := by
    rw [route_ok isEmail env raw body hv,
        handle_to_identityStage env body k project hk hp
          (validate_ok_not_multi isEmail raw body hv),
        identityStage_to_dispatch env project k body identity hi hs hc]
  rw [hroute, dispatchStage_ok env project k body d ha hsk hprov]
  exact ⟨_, _, rfl, rfl, rfl, rfl, rfl, rfl, rfl⟩

/-- C1 witness: the spec's worked example against the fully-configured
environment. -/
theorem send_success_one_sending_log_and_event_witness :
    ∃ logRow evRow,
      (route emailAlwaysOk sampleEnvOk sampleRaw).logs = [logRow] ∧
      (route emailAlwaysOk sampleEnvOk sampleRaw).events = [evRow] ∧
      logRow.status = "sending" ∧
      logRow.messageId = some "msg-1" ∧
      evRow.type_ = "sending" ∧
      evRow.emailLogId = logRow.id ∧
      (route emailAlwaysOk sampleEnvOk sampleRaw).result = .ok logRow.id :=
  send_success_one_sending_log_and_event emailAlwaysOk sampleEnvOk sampleRaw
    sampleBody sampleApiKey sampleProject sampleIdentity ⟨"msg-1"⟩
    (by decide) (by decide) (by decide) (by decide) (by decide) (by decide)
    (by decide) (by decide) (by decide)

/-- C5: for every request reaching dispatch whose provider call fails,
exactly one EmailLog row with status error and exactly one EmailLogEvent
row with type error are persisted, and the caller receives a BadRequest
whose message equals the provider's error message. -/
theorem provider_failure_one_error_log_and_event (isEmail : String → Bool)
    (env : SendEnv) (raw : RawBody) (body : JoiValue) (k : ProjectApiKey)
    (project : Project) (identity : ProjectIdentity) (err : ProviderError)
    (hv : validate isEmail raw = .ok body)
    (hk : env.apiKeyResult = .ok k)
    (hp : env.projects.find? (fun p => p.id == k.projectId) = some project)
    (hi : findIdentity env project.id (fromDomain body.from_) = some identity)
    (hs : identity.status = "success")
    (hc : jsFalsy identity.configurationSetName = false)
    (ha : jsFalsy project.accessKeyId = false)
    (hsk : jsFalsy project.secretAccessKey = false)
    (hprov : env.providerResult = .error err) :
    ∃ logRow evRow,
      (route isEmail env raw).logs = [logRow] ∧
      (route isEmail env raw).events = [evRow] ∧
      logRow.status = "error" ∧
      evRow.type_ = "error" ∧
      (route isEmail env raw).result = .error ⟨.bad_request, err.message⟩ := by
  have hroute : route isEmail env raw = dispatchStage env project k body := by
    rw [route_ok isEmail env raw body hv,
        handle_to_identityStage env body k project hk hp
          (validate_ok_not_multi isEmail raw body hv),
        identityStage_to_dispatch env project k body identity hi hs hc]
  rw [hroute, dispatchStage_err env project k body err ha hsk hprov]
  exact ⟨_, _, rfl, rfl, rfl, rfl, rfl⟩

/-- C5 witness: the worked example against the environment whose provider
call fails with message provider boom. -/
theorem provider_failure_one_error_log_and_event_witness :
    ∃ logRow evRow,
      (route emailAlwaysOk sampleEnvProviderErr sampleRaw).logs = [logRow] ∧
      (route emailAlwaysOk sampleEnvProviderErr sampleRaw).events = [evRow] ∧
      logRow.status = "error" ∧
      evRow.type_ = "error" ∧
      (route emailAlwaysOk sampleEnvProviderErr sampleRaw).result =
        .error ⟨.bad_request, "provider boom"⟩ :=
  provider_failure_one_error_log_and_event emailAlwaysOk sampleEnvProviderErr
    sampleRaw sampleBody sampleApiKey sampleProject sampleIdentity
    ⟨"provider boom"⟩ (by decide) (by decide) (by decide) (by decide)
    (by decide) (by decide) (by decide) (by decide) (by decide)

/-- C2: the invariant fails on the provider-failure path.  On a concrete
failing run, the error log row is inserted under a freshly generated id
(third `newId` call) while the error event references the id from the
first `newId` call, so no inserted EmailLogEvent's emailLogId equals the
inserted EmailLog row's id. -/
theorem error_path_event_references_no_log :
    ((route emailAlwaysOk sampleEnvProviderErr sampleRaw).logs.map
        (fun l => l.id) = ["emailLog_2"]) ∧
    ((route emailAlwaysOk sampleEnvProviderErr sampleRaw).events.map
        (fun ev => ev.emailLogId) = ["emailLog_0"]) ∧
    (((route emailAlwaysOk sampleEnvProviderErr sampleRaw).logs.all
        (fun l => (route emailAlwaysOk sampleEnvProviderErr sampleRaw).events.all
          (fun ev => ev.emailLogId != l.id))) = true) ∧
    ((route emailAlwaysOk sampleEnvProviderErr sampleRaw).logs.length = 1) := by
  decide

/-- C3 counterexample: a concrete authenticated request whose from-domain
has no matching projectIdentity row is rejected with kind bad_request, not
not_found, while writing no rows — refuting the claim that the pipeline
fails with a NotFound error there. -/
theorem missing_identity_not_notfound_cex :
    ((route emailAlwaysOk sampleEnvNoIdentity sampleRaw).result =
      .error ⟨.bad_request,
        "You are not allowed to send email from mly.fyi domain."⟩) ∧
    (∀ m, (route emailAlwaysOk sampleEnvNoIdentity sampleRaw).result ≠
      .error ⟨.not_found, m⟩) ∧
    ((route emailAlwaysOk sampleEnvNoIdentity sampleRaw).logs = []) ∧
    ((route emailAlwaysOk sampleEnvNoIdentity sampleRaw).events = []) := by
  refine ⟨by decide, ?_, by decide, by decide⟩
  intro m hc
  have h1 : (route emailAlwaysOk sampleEnvNoIdentity sampleRaw).result =
      .error ⟨.bad_request,
        "You are not allowed to send email from mly.fyi domain."⟩ := by decide
  rw [h1] at hc
  injection hc with h2
  have h3 := congrArg RouteErr.kind h2
  simp at h3

/-- C3 amended: for every authenticated request whose from-domain has no
matching projectIdentity row for the caller's project, the pipeline fails
with a BadRequest error (message naming the domain), and no EmailLog or
EmailLogEvent rows are written. -/
theorem missing_identity_badrequest_no_rows (isEmail : String → Bool)
    (env : SendEnv) (raw : RawBody) (body : JoiValue) (k : ProjectApiKey)
    (project : Project)
    (hv : validate isEmail raw = .ok body)
    (hk : env.apiKeyResult = .ok k)
    (hp : env.projects.find? (fun p => p.id == k.projectId) = some project)
    (hi : findIdentity env project.id (fromDomain body.from_) = none) :
    (route isEmail env raw).result =
      .error ⟨.bad_request,
        "You are not allowed to send email from " ++
          (fromDomain body.from_).getD "undefined" ++ " domain."⟩ ∧
    (route isEmail env raw).logs = [] ∧
    (route isEmail env raw).events = [] ∧
    (route isEmail env raw).dispatched = false := by
  have hroute : route isEmail env raw = identityStage env project k body := by
    rw [route_ok isEmail env raw body hv,
        handle_to_identityStage env body k project hk hp
          (validate_ok_not_multi isEmail raw body hv)]
  rw [hroute]
  simp [identityStage, hi, failOutcome]

/-- C3 witness: the amended statement at the concrete identity-free
environment. -/
theorem missing_identity_badrequest_no_rows_witness :
    (route emailAlwaysOk sampleEnvNoIdentity sampleRaw).result =
      .error ⟨.bad_request,
        "You are not allowed to send email from " ++
          (fromDomain sampleBody.from_).getD "undefined" ++ " domain."⟩ ∧
    (route emailAlwaysOk sampleEnvNoIdentity sampleRaw).logs = [] ∧
    (route emailAlwaysOk sampleEnvNoIdentity sampleRaw).events = [] ∧
    (route emailAlwaysOk sampleEnvNoIdentity sampleRaw).dispatched = false :=
  missing_identity_badrequest_no_rows emailAlwaysOk sampleEnvNoIdentity
    sampleRaw sampleBody sampleApiKey sampleProject
    (by decide) (by decide) (by decide) (by decide)

/-- With a found identity whose status is not success, the identity stage
rejects with the not-verified BadRequest. -/
lemma identityStage_unverified (env : SendEnv) (project : Project)
    (k : ProjectApiKey) (body : JoiValue) (identity : ProjectIdentity)
    (hi : findIdentity env project.id (fromDomain body.from_) = some identity)
    (hs : identity.status ≠ "success") :
    identityStage env project k body =
      failOutcome
        ⟨.bad_request,
         "Identity " ++ (fromDomain body.from_).getD "undefined" ++
           " is not verified."⟩
        true := by
  simp [identityStage, hi, hs]

/-- With a found, verified identity whose configurationSetName is JS-falsy,
the identity stage rejects with the configuration-set BadRequest. -/
lemma identityStage_unconfigured (env : SendEnv) (project : Project)
    (k : ProjectApiKey) (body : JoiValue) (identity : ProjectIdentity)
    (hi : findIdentity env project.id (fromDomain body.from_) = some identity)
    (hs : identity.status = "success")
    (hc : jsFalsy identity.configurationSetName = true) :
    identityStage env project k body =
      failOutcome
        ⟨.bad_request,
         "Configuration set is not configured for " ++
           (fromDomain body.from_).getD "undefined" ++ " domain."⟩
        true := by
  simp [identityStage, hi, hs, hc]

/-- C4: for every request whose from-domain resolves to a matching
projectIdentity, the provider dispatch is only reachable when the
identity's status is success and its configurationSetName is non-null;
when the status differs from success or the configurationSetName is unset,
the pipeline fails with BadRequest and writes no rows. -/
theorem dispatch_gated_on_identity (isEmail : String → Bool) (env : SendEnv)
    (raw : RawBody) (body : JoiValue) (k : ProjectApiKey) (project : Project)
    (identity : ProjectIdentity)
    (hv : validate isEmail raw = .ok body)
    (hk : env.apiKeyResult = .ok k)
    (hp : env.projects.find? (fun p => p.id == k.projectId) = some project)
    (hi : findIdentity env project.id (fromDomain body.from_) = some identity) :
    ((route isEmail env raw).dispatched = true →
      identity.status = "success" ∧ identity.configurationSetName ≠ none) ∧
    (identity.status ≠ "success" ∨ identity.configurationSetName = none →
      (∃ m, (route isEmail env raw).result = .error ⟨.bad_request, m⟩) ∧
      (route isEmail env raw).logs = [] ∧
      (route isEmail env raw).events = []) := by
  have hroute : route isEmail env raw = identityStage env project k body := by
    rw [route_ok isEmail env raw body hv,
        handle_to_identityStage env body k project hk hp
          (validate_ok_not_multi isEmail raw body hv)]
  by_cases hs : identity.status = "success"
  · by_cases hc : jsFalsy identity.configurationSetName = true
    · have hred := identityStage_unconfigured env project k body identity hi hs hc
      constructor
      · intro hd
        rw [hroute, hred] at hd
        simp [failOutcome] at hd
      · intro _
        rw [hroute, hred]
        exact ⟨⟨_, rfl⟩, rfl, rfl⟩
    · have hcf : jsFalsy identity.configurationSetName = false :=
        Bool.eq_false_iff.mpr hc
      have hred := identityStage_to_dispatch env project k body identity hi hs hcf
      constructor
      · intro _
        exact ⟨hs, jsFalsy_false_ne_none _ hcf⟩
      · intro hor
        rcases hor with h | h
        · exact absurd hs h
        · rw [h] at hcf
          simp [jsFalsy] at hcf
  · have hred := identityStage_unverified env project k body identity hi hs
    constructor
    · intro hd
      rw [hroute, hred] at hd
      simp [failOutcome] at hd
    · intro _
      rw [hroute, hred]
      exact ⟨⟨_, rfl⟩, rfl, rfl⟩

/-- C4 witness: against an environment whose only identity row is pending
and unconfigured, the run does not dispatch and fails BadRequest with no
rows written. -/
theorem dispatch_gated_on_identity_witness :
    ((route emailAlwaysOk
        ⟨.ok sampleApiKey, [sampleProject],
         [⟨"proj1", "mly.fyi", "pending", none⟩], .ok ⟨"msg-1"⟩, 0⟩
        sampleRaw).dispatched = true →
      ("pending" : String) = "success" ∧ (none : Option String) ≠ none) ∧
    (("pending" : String) ≠ "success" ∨ (none : Option String) = none →
      (∃ m, (route emailAlwaysOk
        ⟨.ok sampleApiKey, [sampleProject],
         [⟨"proj1", "mly.fyi", "pending", none⟩], .ok ⟨"msg-1"⟩, 0⟩
        sampleRaw).result = .error ⟨.bad_request, m⟩) ∧
      (route emailAlwaysOk
        ⟨.ok sampleApiKey, [sampleProject],
         [⟨"proj1", "mly.fyi", "pending", none⟩], .ok ⟨"msg-1"⟩, 0⟩
        sampleRaw).logs = [] ∧
      (route emailAlwaysOk
        ⟨.ok sampleApiKey, [sampleProject],
         [⟨"proj1", "mly.fyi", "pending", none⟩], .ok ⟨"msg-1"⟩, 0⟩
        sampleRaw).events = []) :=
  dispatch_gated_on_identity emailAlwaysOk
    ⟨.ok sampleApiKey, [sampleProject],
     [⟨"proj1", "mly.fyi", "pending", none⟩], .ok ⟨"msg-1"⟩, 0⟩
    sampleRaw sampleBody sampleApiKey sampleProject
    ⟨"proj1", "mly.fyi", "pending", none⟩
    (by decide) (by decide) (by decide) (by decide)

/-- An array-valued `to` or `replyTo` makes the Joi schema fail. -/
lemma joiValidate_err_of_arr (isEmail : String → Bool) (raw : RawBody)
    (xs : List String)
    (h : raw.to_ = some (.arr xs) ∨ raw.replyTo = some (.arr xs)) :
    ∃ e, joiValidate isEmail raw = .error e := by
  unfold joiValidate
  cases hf : joiReqString raw.from_ with
  | error e => exact ⟨e, rfl⟩
  | ok f =>
    rcases h with h | h
    · rw [h]
      exact ⟨⟨.validation, "must be a string"⟩, rfl⟩
    · cases ht : joiReqEmail isEmail raw.to_ with
      | error e => exact ⟨e, rfl⟩
      | ok t =>
        rw [h]
        exact ⟨⟨.validation, "must be a string"⟩, rfl⟩

/-- A Joi schema failure is surfaced unchanged by `validate`. -/
lemma validate_err_of_joi_err (isEmail : String → Bool) (raw : RawBody)
    (e : RouteErr) (h : joiValidate isEmail raw = .error e) :
    validate isEmail raw = .error e := by
  unfold validate; rw [h]

/-- C6 counterexample: a concrete request with an array `to`, against a
fully-configured environment, is rejected by schema validation with kind
validation and message must-be-a-string — not with the BadRequest
Multiple-recipients message the claim states — before any identity
lookup. -/
theorem multi_recipient_schema_error_cex :
    (route emailAlwaysOk sampleEnvOk sampleRawArrayTo).result =
      .error ⟨.validation, "must be a string"⟩ ∧
    (route emailAlwaysOk sampleEnvOk sampleRawArrayTo).result ≠
      .error ⟨.bad_request, "Multiple recipients are not supported."⟩ ∧
    (route emailAlwaysOk sampleEnvOk sampleRawArrayTo).identityLookupDone =
      false := by
  decide

/-- C6 amended: a request with an array `to` or `replyTo` is rejected
before any identity lookup, with no rows written — but by the Joi string
schema, not by the handler's Multiple-recipients BadRequest, which fires
only when `handle` is invoked directly on an array-carrying body (i.e.
when schema validation is bypassed). -/
theorem multi_recipient_rejected_before_identity_lookup :
    (∀ (isEmail : String → Bool) (env : SendEnv) (raw : RawBody)
        (xs : List String),
      raw.to_ = some (.arr xs) ∨ raw.replyTo = some (.arr xs) →
      (∃ e, (route isEmail env raw).result = .error e) ∧
      (route isEmail env raw).identityLookupDone = false ∧
      (route isEmail env raw).logs = [] ∧
      (route isEmail env raw).events = []) ∧
    (∀ (env : SendEnv) (body : JoiValue) (k : ProjectApiKey)
        (project : Project),
      env.apiKeyResult = .ok k →
      env.projects.find? (fun p => p.id == k.projectId) = some project →
      multiRecipient body = true →
      handle env body =
        failOutcome ⟨.bad_request, "Multiple recipients are not supported."⟩
          false) := by
  constructor
  · intro isEmail env raw xs h
    obtain ⟨e, he⟩ := joiValidate_err_of_arr isEmail raw xs h
    have hv := validate_err_of_joi_err isEmail raw e he
    rw [route_error isEmail env raw e hv]
    exact ⟨⟨e, rfl⟩, rfl, rfl, rfl⟩
  · intro env body k project hk hp hm
    simp [handle, hk, hp, hm]

/-- C6 witness: the route-level rejection at the concrete array-`to`
request, and the handler-level guard at a directly-supplied array body. -/
theorem multi_recipient_rejected_before_identity_lookup_witness :
    ((∃ e, (route emailAlwaysOk sampleEnvOk sampleRawArrayTo).result =
        .error e) ∧
      (route emailAlwaysOk sampleEnvOk sampleRawArrayTo).identityLookupDone =
        false ∧
      (route emailAlwaysOk sampleEnvOk sampleRawArrayTo).logs = [] ∧
      (route emailAlwaysOk sampleEnvOk sampleRawArrayTo).events = []) ∧
    handle sampleEnvOk
        ⟨"hello@mly.fyi", .arr ["a@b.com", "c@d.com"], none, "Hello",
         some "Hello World", none, []⟩ =
      failOutcome ⟨.bad_request, "Multiple recipients are not supported."⟩
        false :=
  ⟨multi_recipient_rejected_before_identity_lookup.1 emailAlwaysOk sampleEnvOk
      sampleRawArrayTo ["a@b.com", "c@d.com"] (Or.inl (by decide)),
   multi_recipient_rejected_before_identity_lookup.2 sampleEnvOk
      ⟨"hello@mly.fyi", .arr ["a@b.com", "c@d.com"], none, "Hello",
       some "Hello World", none, []⟩
      sampleApiKey sampleProject (by decide) (by decide) (by decide)⟩

/-- The body-content rule passes exactly when `text` or `html` is a
supplied, non-empty string. -/
lemma contentRuleOk_iff (t h : Option String) :
    contentRuleOk t h = true ↔
      ((t ≠ none ∧ t ≠ some "") ∨ (h ≠ none ∧ h ≠ some "")) := by
  cases t with
  | none =>
    cases h with
    | none => simp [contentRuleOk, jsFalsy]
    | some s => by_cases hs : s = "" <;> simp [contentRuleOk, jsFalsy, hs]
  | some s =>
    cases h with
    | none => by_cases hs : s = "" <;> simp [contentRuleOk, jsFalsy, hs]
    | some s2 =>
      by_cases hs : s = "" <;> by_cases hs2 : s2 = "" <;>
        simp [contentRuleOk, jsFalsy, hs, hs2]

/-- C7 counterexample: a concrete request supplying `text` as the empty
string (and no `html`) is present per the claim's reading and passes the
Joi schema, yet `validate` rejects it — refuting that a supplied empty
string counts as present for the body-content rule. -/
theorem empty_text_rejected_cex :
    specContentPresent (some "") none = true ∧
    joiValidate emailAlwaysOk sampleRawEmptyText =
      .ok ⟨"hello@mly.fyi", .str "a@b.com", none, "Hello", some "", none, []⟩ ∧
    validate emailAlwaysOk sampleRawEmptyText =
      .error ⟨.bad_request, "Either text or html is required."⟩ := by
  decide

/-- C7 amended: a schema-accepted body passes the body-content rule iff at
least one of `text` / `html` is supplied and non-empty after trimming (a
supplied empty string counts as absent); when neither is supplied the
request is rejected with the text-or-html BadRequest and no EmailLog or
EmailLogEvent rows are written. -/
theorem content_rule_requires_nonempty (isEmail : String → Bool)
    (raw : RawBody) (v : JoiValue) (env : SendEnv)
    (hj : joiValidate isEmail raw = .ok v) :
    (validate isEmail raw = .ok v ↔
      ((v.text ≠ none ∧ v.text ≠ some "") ∨
       (v.html ≠ none ∧ v.html ≠ some ""))) ∧
    (v.text = none → v.html = none →
      validate isEmail raw =
        .error ⟨.bad_request, "Either text or html is required."⟩ ∧
      (route isEmail env raw).logs = [] ∧
      (route isEmail env raw).events = []) := by
  constructor
  · rw [← contentRuleOk_iff]
    unfold validate
    rw [hj]
    cases hcc : contentRuleOk v.text v.html with
    | true => simp [hcc]
    | false => simp [hcc]
  · intro ht hh
    have hv : validate isEmail raw =
        .error ⟨.bad_request, "Either text or html is required."⟩ := by
      unfold validate
      rw [hj]
      simp [contentRuleOk, jsFalsy, ht, hh]
    refine ⟨hv, ?_, ?_⟩ <;> rw [route_error isEmail env raw _ hv]

/-- C7 witness: the amended statement at a concrete body with no `text`
and no `html`. -/
theorem content_rule_requires_nonempty_witness :
    (validate emailAlwaysOk
        ⟨some (.str "hello@mly.fyi"), some (.str "a@b.com"), none,
         some (.str "Hello"), none, none, []⟩ =
      .ok ⟨"hello@mly.fyi", .str "a@b.com", none, "Hello", none, none, []⟩ ↔
      ((none : Option String) ≠ none ∧ (none : Option String) ≠ some "") ∨
      ((none : Option String) ≠ none ∧ (none : Option String) ≠ some "")) ∧
    ((none : Option String) = none → (none : Option String) = none →
      validate emailAlwaysOk
          ⟨some (.str "hello@mly.fyi"), some (.str "a@b.com"), none,
           some (.str "Hello"), none, none, []⟩ =
        .error ⟨.bad_request, "Either text or html is required."⟩ ∧
      (route emailAlwaysOk sampleEnvOk
          ⟨some (.str "hello@mly.fyi"), some (.str "a@b.com"), none,
           some (.str "Hello"), none, none, []⟩).logs = [] ∧
      (route emailAlwaysOk sampleEnvOk
          ⟨some (.str "hello@mly.fyi"), some (.str "a@b.com"), none,
           some (.str "Hello"), none, none, []⟩).events = []) :=
  content_rule_requires_nonempty emailAlwaysOk
    ⟨some (.str "hello@mly.fyi"), some (.str "a@b.com"), none,
     some (.str "Hello"), none, none, []⟩
    ⟨"hello@mly.fyi", .str "a@b.com", none, "Hello", none, none, []⟩
    sampleEnvOk (by decide)

/-- C8 counterexample: with a present cookie whose token fails to decode,
the middleware does not call `next()`: the decode error escapes (the
decode happens before the `try` block), so session resolution can block
the request — refuting the never-blocks claim. -/
theorem decode_failure_blocks_request_cex :
    (onRequest mwEnvBadToken (some "bad")).outcome = .threw "InvalidToken" ∧
    (onRequest mwEnvBadToken (some "bad")).outcome ≠ .nextCalled := by
  decide

/-- C8 amended: session resolution never blocks the request except on a
token-decode failure.  A missing cookie proceeds unauthenticated with no
decode and no datastore call; a decoded subject id matching no user clears
the cookie and proceeds unauthenticated; a datastore error in a
non-development environment clears the cookie and proceeds unauthenticated
without surfacing the error; but a malformed, expired or tampered token
makes the decode (performed before the try-catch) throw, and that error
propagates out of the middleware. -/
theorem session_resolution_amended (env : MwEnv) (tok uid e : String) :
    (onRequest env none = ⟨.nextCalled, none, none, none, false, false⟩) ∧
    (env.decodeToken tok = .ok uid → env.findUser uid = .ok none →
      onRequest env (some tok) = ⟨.nextCalled, none, none, none, true, true⟩) ∧
    (env.decodeToken tok = .ok uid → env.findUser uid = .error e →
      env.isDev = false →
      onRequest env (some tok) = ⟨.nextCalled, none, none, none, true, true⟩) ∧
    (env.decodeToken tok = .error e →
      onRequest env (some tok) =
        ⟨.threw e, some tok, none, none, true, false⟩) := by
  refine ⟨rfl, ?_, ?_, ?_⟩
  · intro hd hf
    simp [onRequest, hd, hf]
  · intro hd hf hdev
    simp [onRequest, hd, hf, hdev]
  · intro hd
    simp [onRequest, hd]

/-- C8 witness: the four amended behaviours at concrete environments. -/
theorem session_resolution_amended_witness :
    (onRequest mwEnvNoUser none =
      ⟨.nextCalled, none, none, none, false, false⟩) ∧
    (onRequest mwEnvNoUser (some "t") =
      ⟨.nextCalled, none, none, none, true, true⟩) ∧
    (onRequest mwEnvDbError (some "t") =
      ⟨.nextCalled, none, none, none, true, true⟩) ∧
    (onRequest mwEnvBadToken (some "t") =
      ⟨.threw "InvalidToken", some "t", none, none, true, false⟩) :=
  ⟨(session_resolution_amended mwEnvNoUser "t" "ghost" "x").1,
   (session_resolution_amended mwEnvNoUser "t" "ghost" "x").2.1
     (by decide) (by decide),
   (session_resolution_amended mwEnvDbError "t" "user1" "db down").2.2.1
     (by decide) (by decide) (by decide),
   (session_resolution_amended mwEnvBadToken "t" "u" "InvalidToken").2.2.2
     (by decide)⟩

/-- C10: whenever the decoded subject id matches a user row, the resolver
populates currentUser (the id/email/name projection) and currentUserId,
with no condition on the row's isEnabled or verifiedAt fields: the user
row is arbitrary. -/
theorem resolver_ignores_enabled_and_verified (env : MwEnv)
    (tok uid : String) (u : UserRow)
    (hd : env.decodeToken tok = .ok uid)
    (hf : env.findUser uid = .ok (some u)) :
    (onRequest env (some tok)).currentUser = some ⟨u.id, u.email, u.name⟩ ∧
    (onRequest env (some tok)).currentUserId = some u.id := by
  simp [onRequest, hd, hf]

/-- C10 witness: a disabled, unverified user is still resolved as the
current user. -/
theorem resolver_ignores_enabled_and_verified_witness :
    sampleDisabledUser.isEnabled = false ∧
    sampleDisabledUser.verifiedAt = none ∧
    (onRequest mwEnvDisabledUser (some "tok")).currentUser =
      some ⟨"user1", "nia@example.com", "Nia"⟩ ∧
    (onRequest mwEnvDisabledUser (some "tok")).currentUserId = some "user1" :=
  ⟨by decide, by decide,
   (resolver_ignores_enabled_and_verified mwEnvDisabledUser "tok" "user1"
      sampleDisabledUser (by decide) (by decide)).1,
   (resolver_ignores_enabled_and_verified mwEnvDisabledUser "tok" "user1"
      sampleDisabledUser (by decide) (by decide)).2⟩

/-- Splitting on a character that does not occur yields the whole list as
the single field. -/
lemma jsSplitChar_of_not_mem (c : Char) (l : List Char) (h : c ∉ l) :
    jsSplitChar c l = [l] := by
  induction l with
  | nil => rfl
  | cons x xs ih =>
    have hx : ¬(x = c) := fun hc => h (hc ▸ List.mem_cons_self x xs)
    have hxs : c ∉ xs := fun hc => h (List.mem_cons_of_mem x hc)
    simp [jsSplitChar, hx, ih hxs]

/-- Splitting `a ++ c :: b` where neither side contains the separator
yields exactly the two fields `a` and `b`. -/
lemma jsSplitChar_sandwich (c : Char) (a b : List Char)
    (ha : c ∉ a) (hb : c ∉ b) :
    jsSplitChar c (a ++ c :: b) = [a, b] := by
  induction a with
  | nil => simp [jsSplitChar, jsSplitChar_of_not_mem c b hb]
  | cons x xs ih =>
    have hx : ¬(x = c) := fun hc => ha (hc ▸ List.mem_cons_self x xs)
    have hxs : c ∉ xs := fun hc => ha (List.mem_cons_of_mem x hc)
    simp [jsSplitChar, hx, ih hxs]

/-- The spec-worded extraction on `a ++ '@' :: b` with no `@` in `a` takes
everything after the first `@`. -/
lemma specAfterFirstAt_sandwich (a b : List Char) (ha : '@' ∉ a) :
    specAfterFirstAt (a ++ '@' :: b) = some b := by
  induction a with
  | nil => simp [specAfterFirstAt]
  | cons x xs ih =>
    have hx : ¬(x = '@') := fun hc => ha (hc ▸ List.mem_cons_self x xs)
    have hxs : '@' ∉ xs := fun hc => ha (List.mem_cons_of_mem x hc)
    simp [specAfterFirstAt, hx, ih hxs]

/-- C9 counterexample: for `from = "a@b@c"` the code extracts `"b"` — the
segment between the first and second `@` — while the claim's wording
(everything following the first `@` through the end) gives `"b@c"`. -/
theorem from_domain_multi_at_cex :
    fromDomain "a@b@c" = some "b" ∧
    specDomainOf "a@b@c" = some "b@c" ∧
    fromDomain "a@b@c" ≠ specDomainOf "a@b@c" := by
  decide

/-- C9 amended: the domain used in the identity lookup is the second field
of splitting `from` on `@`, i.e. the segment strictly between the first
and second `@`; when `from` contains exactly one `@` this coincides with
the claim's everything-after-the-first-`@`. -/
theorem from_domain_between_first_two_ats (a b : List Char)
    (ha : '@' ∉ a) (hb : '@' ∉ b) :
    fromDomain (String.mk (a ++ '@' :: b)) = some (String.mk b) ∧
    specDomainOf (String.mk (a ++ '@' :: b)) = some (String.mk b) := by
  constructor
  · simp [fromDomain, jsSplitChar_sandwich '@' a b ha hb]
  · simp [specDomainOf, specAfterFirstAt_sandwich a b ha]

/-- C9 witness: `from = "mly@fyi"` splits into domain `"fyi"`, agreeing
with the spec wording in the single-`@` case. -/
theorem from_domain_between_first_two_ats_witness :
    ('@' ∉ ['m', 'l', 'y']) ∧ ('@' ∉ ['f', 'y', 'i']) ∧
    fromDomain (String.mk (['m', 'l', 'y'] ++ '@' :: ['f', 'y', 'i'])) =
      some (String.mk ['f', 'y', 'i']) ∧
    specDomainOf (String.mk (['m', 'l', 'y'] ++ '@' :: ['f', 'y', 'i'])) =
      some (String.mk ['f', 'y', 'i']) :=
  ⟨by decide, by decide,
   (from_domain_between_first_two_ats ['m', 'l', 'y'] ['f', 'y', 'i']
      (by decide) (by decide)).1,
   (from_domain_between_first_two_ats ['m', 'l', 'y'] ['f', 'y', 'i']
      (by decide) (by decide)).2⟩
